import Mathlib

/-!
Shallow embedding of the accent-clustering pipeline
(`app/train_model.py`, `app/test_model.py`, `app/app.py`, `app/main.py`).

Feature vectors are 13-dimensional MFCC means; they are modelled as lists of
exact rationals.  The scikit-learn KMeans object is modelled by its list of
centroid vectors; `model.predict` on a single vector is numpy's argmin of the
Euclidean distances to the centroids, which returns the first index attaining
the minimum.  The pandas reference DataFrame is modelled as a list of
(filename, cluster) rows in training insertion order.
-/

namespace Accent

/-- A feature vector: in the source a 1-D numpy array of float64 values
(the time-averaged MFCC coefficients), modelled with exact rationals. -/
abbrev Vec := List ℚ

/-- Squared Euclidean distance between two vectors, componentwise.
Minimising the squared distance is the same as minimising the distance,
so `model.predict`'s nearest-centroid search is stated over `sqDist`. -/
def sqDist (v w : Vec) : ℚ := (List.zipWith (fun a b => (a - b) * (a - b)) v w).sum

/-- Minimum value of a list of rationals (`0` for the empty list). -/
def listMin : List ℚ → ℚ
  | [] => 0
  | [a] => a
  | a :: b :: rest => min a (listMin (b :: rest))

/-- Index of the first occurrence of the minimum value of a list:
numpy `argmin` semantics (ties broken by lowest index). -/
def argminFirst (l : List ℚ) : Nat := l.findIdx (fun x => decide (x ≤ listMin l))

/-- `model.predict([v])[0]` for a KMeans model given by its centroid list:
index of the centroid at minimal Euclidean distance from `v`, the first such
index when several centroids are equidistant. -/
def predict (centroids : List Vec) (v : Vec) : Nat :=
  argminFirst (centroids.map (fun c => sqDist c v))

/-! ### Basic lemmas about `listMin`, `argminFirst`, `sqDist` -/

theorem listMin_le {l : List ℚ} {x : ℚ} (hx : x ∈ l) : listMin l ≤ x := by
  induction l with
  | nil => cases hx
  | cons a rest ih =>
    cases rest with
    | nil =>
      rcases List.mem_singleton.mp hx with rfl
      exact le_refl _
    | cons b t =>
      rcases List.mem_cons.mp hx with rfl | hx2
      · exact min_le_left _ _
      · exact le_trans (min_le_right _ _) (ih hx2)

theorem listMin_mem {l : List ℚ} (h : l ≠ []) : listMin l ∈ l := by
  induction l with
  | nil => exact absurd rfl h
  | cons a rest ih =>
    cases rest with
    | nil => simp [listMin]
    | cons b t =>
      show min a (listMin (b :: t)) ∈ a :: b :: t
      rcases min_cases a (listMin (b :: t)) with ⟨heq, _⟩ | ⟨heq, _⟩
      · rw [heq]; exact List.mem_cons_self _ _
      · rw [heq]; exact List.mem_cons_of_mem _ (ih (by simp))

theorem argminFirst_lt_length {l : List ℚ} (h : l ≠ []) : argminFirst l < l.length := by
  apply List.findIdx_lt_length_of_exists
  exact ⟨listMin l, listMin_mem h, by simp⟩

theorem argminFirst_get {l : List ℚ} (h : l ≠ []) :
    l.get ⟨argminFirst l, argminFirst_lt_length h⟩ = listMin l := by
  have h1 : decide (l.get ⟨argminFirst l, argminFirst_lt_length h⟩ ≤ listMin l) = true := by
    have := @List.findIdx_getElem _ (fun x => decide (x ≤ listMin l)) l (argminFirst_lt_length h)
    simpa [List.get_eq_getElem] using this
  have h2 : l.get ⟨argminFirst l, argminFirst_lt_length h⟩ ≤ listMin l := by
    simpa using h1
  exact le_antisymm h2 (listMin_le (l.get_mem _ _))

theorem lt_of_lt_argminFirst {l : List ℚ} {j : Nat} (hj : j < argminFirst l)
    (hjl : j < l.length) : listMin l < l.get ⟨j, hjl⟩ := by
  have h1 : decide (l.get ⟨j, hjl⟩ ≤ listMin l) = false := by
    have := @List.not_of_lt_findIdx _ (fun x => decide (x ≤ listMin l)) l j hj
    simpa [List.get_eq_getElem] using this
  have h2 : ¬ l.get ⟨j, hjl⟩ ≤ listMin l := by simpa using h1
  exact lt_of_not_le h2

theorem sqDist_nonneg (v w : Vec) : 0 ≤ sqDist v w := by
  apply List.sum_nonneg
  intro x hx
  rcases List.mem_iff_get.mp hx with ⟨i, hi⟩
  rw [List.get_eq_getElem, List.getElem_zipWith] at hi
  rw [← hi]
  exact mul_self_nonneg _

theorem sqDist_self (v : Vec) : sqDist v v = 0 := by
  induction v with
  | nil => rfl
  | cons a t ih => simp [sqDist] at ih ⊢

theorem sqDist_eq_zero {v w : Vec} (hlen : v.length = w.length)
    (h : sqDist v w = 0) : v = w := by
  induction v generalizing w with
  | nil =>
    cases w with
    | nil => rfl
    | cons b t => cases hlen
  | cons a t ih =>
    cases w with
    | nil => cases hlen
    | cons b u =>
      have hlen2 : t.length = u.length := by simpa using hlen
      have hsum : (a - b) * (a - b) + sqDist t u = 0 := by
        simpa [sqDist] using h
      have h1 : 0 ≤ (a - b) * (a - b) := mul_self_nonneg _
      have h2 : 0 ≤ sqDist t u := sqDist_nonneg t u
      have hab : (a - b) * (a - b) = 0 := by linarith
      have htu : sqDist t u = 0 := by linarith
      have : a = b := by
        have := mul_self_eq_zero.mp hab
        linarith
      rw [this, ih hlen2 htu]

/-! ### Properties of `predict` -/

theorem predict_lt_length {centroids : List Vec} (v : Vec) (hK : centroids ≠ []) :
    predict centroids v < centroids.length := by
  have h := argminFirst_lt_length (l := centroids.map (fun c => sqDist c v))
    (by simpa using hK)
  simpa [predict] using h

theorem predict_dist_le {centroids : List Vec} (v : Vec) (hK : centroids ≠ [])
    {j : Nat} (hj : j < centroids.length) :
    sqDist (centroids.getD (predict centroids v) []) v ≤ sqDist (centroids.getD j []) v := by
  have hdne : centroids.map (fun c => sqDist c v) ≠ [] := by simpa using hK
  have hplt : predict centroids v < centroids.length := predict_lt_length v hK
  have hjd : j < (centroids.map (fun c => sqDist c v)).length := by simpa using hj
  have h1 := argminFirst_get hdne
  have h2 : listMin (centroids.map (fun c => sqDist c v)) ≤
      (centroids.map (fun c => sqDist c v)).get ⟨j, hjd⟩ :=
    listMin_le (List.get_mem _ _ _)
  have e1 : (centroids.map (fun c => sqDist c v)).get
      ⟨argminFirst (centroids.map (fun c => sqDist c v)), argminFirst_lt_length hdne⟩ =
      sqDist (centroids.getD (predict centroids v) []) v := by
    rw [List.getD_eq_getElem _ _ hplt, List.get_eq_getElem, List.getElem_map]
    rfl
  have e2 : (centroids.map (fun c => sqDist c v)).get ⟨j, hjd⟩ =
      sqDist (centroids.getD j []) v := by
    rw [List.getD_eq_getElem _ _ hj, List.get_eq_getElem, List.getElem_map]
  rw [← e1, ← e2, h1]
  exact h2

theorem predict_tie_break {centroids : List Vec} (v : Vec) (hK : centroids ≠ [])
    {j : Nat} (hj : j < predict centroids v) :
    sqDist (centroids.getD (predict centroids v) []) v < sqDist (centroids.getD j []) v := by
  have hdne : centroids.map (fun c => sqDist c v) ≠ [] := by simpa using hK
  have hplt : predict centroids v < centroids.length := predict_lt_length v hK
  have hjc : j < centroids.length := lt_trans hj hplt
  have hjd : j < (centroids.map (fun c => sqDist c v)).length := by simpa using hjc
  have h1 := argminFirst_get hdne
  have h2 : listMin (centroids.map (fun c => sqDist c v)) <
      (centroids.map (fun c => sqDist c v)).get ⟨j, hjd⟩ :=
    lt_of_lt_argminFirst (by simpa [predict] using hj) hjd
  have e1 : (centroids.map (fun c => sqDist c v)).get
      ⟨argminFirst (centroids.map (fun c => sqDist c v)), argminFirst_lt_length hdne⟩ =
      sqDist (centroids.getD (predict centroids v) []) v := by
    rw [List.getD_eq_getElem _ _ hplt, List.get_eq_getElem, List.getElem_map]
    rfl
  have e2 : (centroids.map (fun c => sqDist c v)).get ⟨j, hjd⟩ =
      sqDist (centroids.getD j []) v := by
    rw [List.getD_eq_getElem _ _ hjc, List.get_eq_getElem, List.getElem_map]
  rw [← e1, ← e2, h1]
  exact h2

theorem predict_at_centroid {centroids : List Vec} {i : Nat}
    (hdim : ∀ c ∈ centroids, c.length = 13) (hi : i < centroids.length)
    (hdistinct : ∀ j, j < i → centroids.getD j [] ≠ centroids.getD i []) :
    predict centroids (centroids.getD i []) = i := by
  have hK : centroids ≠ [] := by
    intro h; rw [h] at hi; simp at hi
  set v := centroids.getD i [] with hv
  have hvmem : v ∈ centroids := by
    rw [hv, List.getD_eq_getElem _ _ hi]
    exact centroids.getElem_mem _
  have hdi : sqDist (centroids.getD i []) v = 0 := by rw [← hv]; exact sqDist_self v
  have hple : predict centroids v ≤ i := by
    by_contra hgt
    push_neg at hgt
    have := predict_tie_break v hK (j := i) hgt
    have hnn := sqDist_nonneg (centroids.getD (predict centroids v) []) v
    rw [hdi] at this
    linarith
  rcases Nat.lt_or_ge (predict centroids v) i with hlt | hge
  · exfalso
    have hple2 := predict_dist_le v hK hi
    rw [hdi] at hple2
    have hnn := sqDist_nonneg (centroids.getD (predict centroids v) []) v
    have hzero : sqDist (centroids.getD (predict centroids v) []) v = 0 := le_antisymm hple2 hnn
    have hplen : predict centroids v < centroids.length := predict_lt_length v hK
    have hlen1 : (centroids.getD (predict centroids v) []).length = 13 := by
      apply hdim
      rw [List.getD_eq_getElem _ _ hplen]
      exact centroids.getElem_mem _
    have hlen2 : v.length = 13 := by
      rw [hv, List.getD_eq_getElem _ _ hi]
      exact hdim _ (centroids.getElem_mem _)
    have heq : centroids.getD (predict centroids v) [] = v :=
      sqDist_eq_zero (by rw [hlen1, hlen2]) hzero
    exact hdistinct _ hlt (heq.trans hv)
  · omega

/-- C1: `predict_cluster`'s `model.predict` returns the index of the centroid
with minimum Euclidean distance to the input vector, breaking ties by lowest
centroid index; a vector placed exactly at centroid `i` (the centroids being
pairwise distinct) is assigned to `i`; and the returned id is always in
`[0, K)`. -/
theorem C1_predict_nearest_centroid (centroids : List Vec) (v : Vec)
    (hK : centroids ≠ []) (hdim : ∀ c ∈ centroids, c.length = 13) :
    predict centroids v < centroids.length ∧
    (∀ j, j < centroids.length →
      sqDist (centroids.getD (predict centroids v) []) v ≤ sqDist (centroids.getD j []) v) ∧
    (∀ j, j < predict centroids v →
      sqDist (centroids.getD (predict centroids v) []) v < sqDist (centroids.getD j []) v) ∧
    (∀ i, i < centroids.length → (∀ j, j < i → centroids.getD j [] ≠ centroids.getD i []) →
      predict centroids (centroids.getD i []) = i) :=
  ⟨predict_lt_length v hK,
   fun _ hj => predict_dist_le v hK hj,
   fun _ hj => predict_tie_break v hK hj,
   fun _ hi hdistinct => predict_at_centroid hdim hi hdistinct⟩

/-- Witness for C1 at a concrete model: two distinct 13-dimensional centroids;
the vector placed at centroid 1 is assigned cluster 1. -/
theorem C1_witness :
    predict [List.replicate 13 (0 : ℚ), List.replicate 13 (1 : ℚ)]
      ([List.replicate 13 (0 : ℚ), List.replicate 13 (1 : ℚ)].getD 1 []) = 1 :=
  (C1_predict_nearest_centroid
      [List.replicate 13 (0 : ℚ), List.replicate 13 (1 : ℚ)]
      (List.replicate 13 (1 : ℚ)) (by decide) (by decide)).2.2.2
    1 (by decide) (by decide)

/-! ### Reference table and lookup -/

/-- One row of the reference CSV produced at training time:
a training sample's filename and the cluster label assigned to it. -/
structure RefEntry where
  filename : String
  cluster : Nat
deriving DecidableEq, Repr

/-- The same-cluster match retrieval of `predict_cluster`:
`reference_df[reference_df['cluster'] == cluster]` keeps the rows whose
cluster equals the queried id, in the DataFrame's original row order, and
`.head(limit)` keeps the first `limit` of them; the displayed identifiers are
their filenames. -/
def lookup (ref : List RefEntry) (id : Nat) (limit : Nat) : List String :=
  ((ref.filter (fun e => e.cluster == id)).take limit).map RefEntry.filename

/-- C2: the same-cluster retrieval with limit 10 returns only identifiers of
rows whose recorded cluster id equals the queried id, at most 10 of them, and
in the reference table's original (training insertion) order: the result is a
sublist of the table's filename column. -/
theorem C2_lookup_sound (ref : List RefEntry) (id : Nat) :
    (∀ s ∈ lookup ref id 10, ∃ e ∈ ref, e.filename = s ∧ e.cluster = id) ∧
    (lookup ref id 10).length ≤ 10 ∧
    (lookup ref id 10).Sublist (ref.map RefEntry.filename) := by
  refine ⟨?_, ?_, ?_⟩
  · intro s hs
    rcases List.mem_map.mp hs with ⟨e, he, rfl⟩
    have he2 := List.mem_of_mem_take he
    have he3 := List.mem_of_mem_filter he2
    have he4 := List.of_mem_filter he2
    exact ⟨e, he3, rfl, by simpa using he4⟩
  · calc (lookup ref id 10).length
        = ((ref.filter (fun e => e.cluster == id)).take 10).length := by
          simp [lookup]
      _ ≤ 10 := by simp
  · exact ((List.take_sublist _ _).trans (List.filter_sublist _)).map _

/-- Witness for C2 at a concrete reference table. -/
theorem C2_witness :
    (∃ e ∈ [RefEntry.mk "a.mp3" 1, RefEntry.mk "b.mp3" 0, RefEntry.mk "c.mp3" 1],
        e.filename = "c.mp3" ∧ e.cluster = 1) ∧
    (lookup [RefEntry.mk "a.mp3" 1, RefEntry.mk "b.mp3" 0, RefEntry.mk "c.mp3" 1] 1 10).length ≤ 10 ∧
    (lookup [RefEntry.mk "a.mp3" 1, RefEntry.mk "b.mp3" 0, RefEntry.mk "c.mp3" 1] 1 10).Sublist
      ([RefEntry.mk "a.mp3" 1, RefEntry.mk "b.mp3" 0, RefEntry.mk "c.mp3" 1].map RefEntry.filename) :=
  ⟨(C2_lookup_sound [RefEntry.mk "a.mp3" 1, RefEntry.mk "b.mp3" 0, RefEntry.mk "c.mp3" 1] 1).1
      "c.mp3" (by decide),
   (C2_lookup_sound [RefEntry.mk "a.mp3" 1, RefEntry.mk "b.mp3" 0, RefEntry.mk "c.mp3" 1] 1).2.1,
   (C2_lookup_sound [RefEntry.mk "a.mp3" 1, RefEntry.mk "b.mp3" 0, RefEntry.mk "c.mp3" 1] 1).2.2⟩

/-! ### Corpus enumeration and feature extraction -/

/-- Python `filename.endswith(sfx)`: the final characters of the string equal
the suffix. -/
def strEndsWith (s sfx : String) : Bool :=
  s.data.reverse.take sfx.data.length == sfx.data.reverse

/-- The extension filter of `load_audio_features`:
`filename.endswith(".mp3") or filename.endswith(".wav")` — case-sensitive,
lowercase suffixes only. -/
def isAudioName (s : String) : Bool :=
  strEndsWith s ".mp3" || strEndsWith s ".wav"

/-- Modelled from the spec: `librosa.feature.mfcc` (external to the
repository) returns a matrix of `N_MFCC = 13` coefficient rows with one
column per analysis frame, the frame count growing with the waveform length
(1 + n/512 frames for an n-sample clip at librosa's default hop of 512).
The numerical coefficient values are stood in for by a concrete window sum;
only the matrix shape matters to the dimensionality claims. -/
def mfcc13 (w : List ℚ) : List (List ℚ) :=
  (List.range 13).map (fun (c : Nat) =>
    (List.range (1 + w.length / 512)).map (fun (t : Nat) =>
      ((w.drop (t * 512)).take 512).sum + (c : ℚ)))

/-- Arithmetic mean of a list of rationals. -/
def meanOfList (l : List ℚ) : ℚ := l.sum / (l.length : ℚ)

/-- `extract_features`: decode the waveform at 16 kHz, compute the
13-coefficient MFCC matrix and average each coefficient over time:
`np.mean(mfcc.T, axis=0)` is exactly the vector of row means of the
(13, T) coefficient matrix. -/
def extract_features (w : List ℚ) : List ℚ := (mfcc13 w).map meanOfList

/-- A directory entry as seen by `load_audio_features`: a filename and the
result of decoding it (`some w`: `librosa.load` yields waveform `w`;
`none`: decoding raises and the file is skipped). -/
structure AudioFile where
  name : String
  waveform : Option (List ℚ)
deriving DecidableEq, Repr

/-- The outcome of the `load_audio_features` loop: the feature-matrix rows,
the filenames that produced them (same order), and the names of the files
whose decode error was caught and logged. -/
structure LoadResult where
  features : List Vec
  filenames : List String
  skipped : List String
deriving DecidableEq, Repr

/-- `load_audio_features`: iterate over the directory listing; for each entry
whose name ends in ".mp3" or ".wav", try to decode and extract features,
appending the vector and the filename on success and logging a skip message
on failure; every other entry is passed over silently. -/
def load_audio_features : List AudioFile → LoadResult
  | [] => ⟨[], [], []⟩
  | f :: rest =>
    let r := load_audio_features rest
    if isAudioName f.name then
      match f.waveform with
      | some w => ⟨extract_features w :: r.features, f.name :: r.filenames, r.skipped⟩
      | none => ⟨r.features, r.filenames, f.name :: r.skipped⟩
    else r

/-- The usable corpus entries: audio-extension names that decode. -/
def usableSuccesses (dir : List AudioFile) : List AudioFile :=
  dir.filter (fun f => isAudioName f.name && f.waveform.isSome)

/-- The corpus entries that are attempted but fail to decode. -/
def usableFailures (dir : List AudioFile) : List AudioFile :=
  dir.filter (fun f => isAudioName f.name && f.waveform.isNone)

theorem load_audio_features_eq (dir : List AudioFile) :
    load_audio_features dir =
      ⟨(usableSuccesses dir).filterMap (fun f => f.waveform.map extract_features),
       (usableSuccesses dir).map AudioFile.name,
       (usableFailures dir).map AudioFile.name⟩ := by
  induction dir with
  | nil => rfl
  | cons f rest ih =>
    by_cases ha : isAudioName f.name
    · cases hw : f.waveform with
      | some w =>
        simp [load_audio_features, usableSuccesses, usableFailures, ha, hw, ih,
          List.filter_cons, Option.isSome, Option.isNone]
      | none =>
        simp [load_audio_features, usableSuccesses, usableFailures, ha, hw, ih,
          List.filter_cons, Option.isSome, Option.isNone]
    · simp [load_audio_features, usableSuccesses, usableFailures, ha, ih,
        List.filter_cons]

/-! ### Training and persistence -/

/-- The training run's fatal error (§7): fit with fewer samples than clusters
or with an empty feature matrix aborts. -/
inductive TrainError where
  | insufficientData
deriving DecidableEq, Repr

/-- sklearn's `random_state` handling: an explicit integer seed is used as
given; `None` would fall back to the process-wide RNG state. -/
def seedOf (randomState : Option Nat) (processEntropy : Nat) : Nat :=
  randomState.getD processEntropy

/-- `train_model(features, filenames, n_clusters)`:
`KMeans(n_clusters=n_clusters, random_state=42).fit_predict(features)` raises
when the matrix is empty, has fewer samples than clusters, or
`n_clusters < 1`; otherwise the fitted centroids come from the clustering
routine (`fitImpl`, abstract here — sklearn's Lloyd iterations live outside
the repository) run with the fixed seed 42, the label of each sample is its
nearest-centroid assignment to the final centroids, and the model and the
(filename, label) table are persisted — both writes happening only after a
successful fit. -/
def train_model (fitImpl : List Vec → Nat → Nat → List Vec) (processEntropy : Nat)
    (features : List Vec) (filenames : List String) (n_clusters : Nat) :
    Except TrainError (List Vec × List RefEntry) :=
  if features.length = 0 ∨ features.length < n_clusters ∨ n_clusters = 0 then
    .error .insufficientData
  else
    let centroids := fitImpl features n_clusters (seedOf (some 42) processEntropy)
    let labels := features.map (predict centroids)
    .ok (centroids, List.zipWith RefEntry.mk filenames labels)

/-- `main` of `train_model.py` minus argument parsing: enumerate the corpus,
extract features, train and persist. -/
def training_run (fitImpl : List Vec → Nat → Nat → List Vec) (processEntropy : Nat)
    (dir : List AudioFile) (n_clusters : Nat) :
    Except TrainError (List Vec × List RefEntry) :=
  let r := load_audio_features dir
  train_model fitImpl processEntropy r.features r.filenames n_clusters

/-- The artifacts on disk after a training attempt: `dump(kmeans, ...)` and
`df.to_csv(...)` run only after `fit_predict` has returned, so an aborted fit
leaves nothing persisted. -/
def persistedArtifacts (r : Except TrainError (List Vec × List RefEntry)) :
    Option (List Vec × List RefEntry) := r.toOption

/-- The serialized KMeans model (joblib dump): it carries the centroid
matrix. -/
structure ModelArtifact where
  centroids : List Vec
deriving DecidableEq, Repr

/-- `dump(kmeans, MODEL_OUTPUT)`. -/
def dumpModel (centroids : List Vec) : ModelArtifact := ⟨centroids⟩

/-- `load(MODEL_PATH)`. -/
def loadModel (a : ModelArtifact) : List Vec := a.centroids

/-- `df.to_csv(REFERENCE_CSV)`: one (filename, cluster) row per sample. -/
def dumpRef (rows : List RefEntry) : List (String × Nat) :=
  rows.map (fun e => (e.filename, e.cluster))

/-- `pd.read_csv(REFERENCE_CSV)`. -/
def loadRef (rows : List (String × Nat)) : List RefEntry :=
  rows.map (fun p => ⟨p.1, p.2⟩)

/-- `classify` (§6): extract features from a waveform and assign the nearest
centroid — the inference core of `predict_cluster`. -/
def classify (centroids : List Vec) (w : List ℚ) : Nat :=
  predict centroids (extract_features w)

/-- Errors raised by `load_model_and_reference` in `test_model.py`. -/
inductive LoadError where
  | modelNotFound
  | referenceNotFound
deriving DecidableEq, Repr

/-- `load_model_and_reference`: raise if the model file is missing, raise if
the reference CSV is missing, otherwise load and return both — performing no
validation of the reference's cluster ids against the model's `k`. -/
def load_model_and_reference (modelFile : Option ModelArtifact)
    (referenceFile : Option (List (String × Nat))) :
    Except LoadError (List Vec × List RefEntry) :=
  match modelFile with
  | none => .error .modelNotFound
  | some m =>
    match referenceFile with
    | none => .error .referenceNotFound
    | some rows => .ok (loadModel m, loadRef rows)

/-! ### Dimensionality, insufficient data, reproducibility, skip-and-log -/

/-- C5: for every decodable waveform, regardless of its duration,
`extract_features` returns a vector of exactly 13 elements, one
time-averaged value per cepstral coefficient. -/
theorem C5_extract_features_length (w : List ℚ) : (extract_features w).length = 13 := by
  unfold extract_features mfcc13
  rw [List.length_map, List.length_map, List.length_range]

/-- C4: `fit` signals an error when the matrix has fewer samples than
clusters or is empty; in particular a training run over a corpus with zero
usable files signals the error and persists neither a model artifact nor a
reference table. -/
theorem C4_insufficient_data (fitImpl : List Vec → Nat → Nat → List Vec)
    (e : Nat) (filenames : List String) (k : Nat) :
    (∀ features : List Vec, features.length < k ∨ features = [] →
      train_model fitImpl e features filenames k = .error .insufficientData ∧
      persistedArtifacts (train_model fitImpl e features filenames k) = none) ∧
    (∀ dir : List AudioFile, usableSuccesses dir = [] →
      training_run fitImpl e dir k = .error .insufficientData ∧
      persistedArtifacts (training_run fitImpl e dir k) = none) := by
  have key : ∀ (fns : List String) (features : List Vec),
      features.length < k ∨ features = [] →
      train_model fitImpl e features fns k = .error .insufficientData := by
    intro fns features h
    have hcond : features.length = 0 ∨ features.length < k ∨ k = 0 := by
      rcases h with h | rfl
      · exact Or.inr (Or.inl h)
      · exact Or.inl rfl
    unfold train_model
    rw [if_pos hcond]
  constructor
  · intro features h
    refine ⟨key filenames features h, ?_⟩
    unfold persistedArtifacts
    rw [key filenames features h]
    rfl
  · intro dir h
    have hf : (load_audio_features dir).features = [] := by
      rw [load_audio_features_eq, h]
      rfl
    have hrun : training_run fitImpl e dir k = .error .insufficientData := by
      show train_model fitImpl e (load_audio_features dir).features
        (load_audio_features dir).filenames k = .error .insufficientData
      exact key _ _ (Or.inr hf)
    refine ⟨hrun, ?_⟩
    unfold persistedArtifacts
    rw [hrun]
    rfl

/-- Witness for C4: training on an empty feature matrix (here: a directory
holding one non-audio file) aborts with no artifact. -/
theorem C4_witness :
    training_run (fun fs kk _ => fs.take kk) 0 [AudioFile.mk "notes.txt" none] 8 =
      .error .insufficientData ∧
    persistedArtifacts (training_run (fun fs kk _ => fs.take kk) 0
      [AudioFile.mk "notes.txt" none] 8) = none :=
  (C4_insufficient_data (fun fs kk _ => fs.take kk) 0 [] 8).2
    [AudioFile.mk "notes.txt" none] (by decide)

/-- C8: fit is reproducible — the source pins `random_state=42`, a fixed and
documented seed, so two training runs over the same feature matrix and k
produce the same result whatever the process RNG state: identical fitted
centroids and an identical cluster label for every sample. -/
theorem C8_fit_reproducible (fitImpl : List Vec → Nat → Nat → List Vec)
    (features : List Vec) (filenames : List String) (k : Nat) (e1 e2 : Nat) :
    train_model fitImpl e1 features filenames k =
      train_model fitImpl e2 features filenames k ∧
    (train_model fitImpl e1 features filenames k).toOption.map Prod.fst =
      (train_model fitImpl e2 features filenames k).toOption.map Prod.fst ∧
    (train_model fitImpl e1 features filenames k).toOption.map
        (fun r => r.2.map RefEntry.cluster) =
      (train_model fitImpl e2 features filenames k).toOption.map
        (fun r => r.2.map RefEntry.cluster) ∧
    seedOf (some 42) e1 = 42 ∧ seedOf (some 42) e2 = 42 :=
  ⟨rfl, rfl, rfl, rfl, rfl⟩

/-- C3 counterexample: a corpus holding exactly one decodable audio file, on
which the training run of `train_model.py` (default `n_clusters = 8`) does
not complete: fit aborts because one sample is fewer than eight clusters. -/
theorem C3_counterexample :
    training_run (fun fs kk _ => fs.take kk) 0 [AudioFile.mk "a.mp3" (some [])] 8 =
      .error .insufficientData := by
  rfl

theorem filterMap_waveform_eq {l : List AudioFile}
    (h : ∀ f ∈ l, f.waveform.isSome = true) :
    l.filterMap (fun f => f.waveform.map extract_features) =
      l.map (fun f => extract_features (f.waveform.getD [])) := by
  induction l with
  | nil => rfl
  | cons f rest ih =>
    rcases Option.isSome_iff_exists.mp (h f (List.mem_cons_self f rest)) with ⟨w, hw⟩
    simp only [List.filterMap_cons, List.map_cons, hw, Option.map_some', Option.getD_some]
    rw [ih (fun g hg => h g (List.mem_cons_of_mem f hg))]

theorem usableSuccesses_isSome {dir : List AudioFile} {f : AudioFile}
    (hf : f ∈ usableSuccesses dir) : f.waveform.isSome = true := by
  have := List.of_mem_filter hf
  simp only [Bool.and_eq_true] at this
  exact this.2

/-- C3 amended: feature extraction never aborts on a partially corrupt
corpus — every failing audio-named file is skipped and logged, contributing
no feature row — and fit receives exactly the vectors of the successfully
decoded files; the run as a whole completes provided at least
`max n_clusters 1` files decode (the claim's "at least one decodable file"
suffices only for `n_clusters ≤ 1`: with the default `n_clusters = 8`, fit
itself aborts on one to seven usable files, cf. C4). -/
theorem C3_skip_log_fit_on_successes (fitImpl : List Vec → Nat → Nat → List Vec)
    (e : Nat) (dir : List AudioFile) (k : Nat)
    (hk : 1 ≤ k) (hN : k ≤ (usableSuccesses dir).length) :
    (load_audio_features dir).features =
      (usableSuccesses dir).filterMap (fun f => f.waveform.map extract_features) ∧
    (load_audio_features dir).skipped = (usableFailures dir).map AudioFile.name ∧
    (load_audio_features dir).features.length = (usableSuccesses dir).length ∧
    (training_run fitImpl e dir k).isOk = true := by
  have hfeat : (load_audio_features dir).features =
      (usableSuccesses dir).filterMap (fun f => f.waveform.map extract_features) := by
    rw [load_audio_features_eq]
  have hlen : (load_audio_features dir).features.length = (usableSuccesses dir).length := by
    rw [hfeat, filterMap_waveform_eq (fun f hf => usableSuccesses_isSome hf), List.length_map]
  refine ⟨hfeat, by rw [load_audio_features_eq], hlen, ?_⟩
  have hcond : ¬ ((load_audio_features dir).features.length = 0 ∨
      (load_audio_features dir).features.length < k ∨ k = 0) := by
    push_neg
    refine ⟨?_, ?_, ?_⟩ <;> omega
  unfold training_run train_model
  rw [if_neg hcond]
  rfl

/-- Witness for C3's amended statement: one good file, one corrupt file,
`n_clusters = 1`: the corrupt file is logged and contributes nothing, and
the run completes. -/
theorem C3_witness :
    (load_audio_features [AudioFile.mk "a.mp3" (some []), AudioFile.mk "bad.mp3" none]).features =
      (usableSuccesses [AudioFile.mk "a.mp3" (some []), AudioFile.mk "bad.mp3" none]).filterMap
        (fun f => f.waveform.map extract_features) ∧
    (load_audio_features [AudioFile.mk "a.mp3" (some []), AudioFile.mk "bad.mp3" none]).skipped =
      (usableFailures [AudioFile.mk "a.mp3" (some []), AudioFile.mk "bad.mp3" none]).map
        AudioFile.name ∧
    (load_audio_features [AudioFile.mk "a.mp3" (some []), AudioFile.mk "bad.mp3" none]).features.length =
      (usableSuccesses [AudioFile.mk "a.mp3" (some []), AudioFile.mk "bad.mp3" none]).length ∧
    (training_run (fun fs kk _ => fs.take kk) 0
      [AudioFile.mk "a.mp3" (some []), AudioFile.mk "bad.mp3" none] 1).isOk = true :=
  C3_skip_log_fit_on_successes (fun fs kk _ => fs.take kk) 0
    [AudioFile.mk "a.mp3" (some []), AudioFile.mk "bad.mp3" none] 1
    (by decide) (by decide)

/-! ### Stale ids, extension filtering, round trip, load-time validation -/

theorem cluster_mem_of_mem_zipWith {ns : List String} {ls : List Nat} {a : RefEntry}
    (h : a ∈ List.zipWith RefEntry.mk ns ls) : a.cluster ∈ ls := by
  induction ns generalizing ls with
  | nil => cases h
  | cons n ns ih =>
    cases ls with
    | nil => cases h
    | cons l ls =>
      rcases List.mem_cons.mp h with rfl | h2
      · exact List.mem_cons_self _ _
      · exact List.mem_cons_of_mem _ (ih h2)

theorem training_run_ok_inv {fitImpl : List Vec → Nat → Nat → List Vec}
    {e : Nat} {dir : List AudioFile} {k : Nat} {centroids : List Vec} {ref : List RefEntry}
    (h : training_run fitImpl e dir k = .ok (centroids, ref)) :
    ¬ ((load_audio_features dir).features.length = 0 ∨
        (load_audio_features dir).features.length < k ∨ k = 0) ∧
    centroids =
      fitImpl (load_audio_features dir).features k (seedOf (some 42) e) ∧
    ref = List.zipWith RefEntry.mk (load_audio_features dir).filenames
      ((load_audio_features dir).features.map (predict centroids)) := by
  have h2 : train_model fitImpl e (load_audio_features dir).features
      (load_audio_features dir).filenames k = .ok (centroids, ref) := h
  unfold train_model at h2
  by_cases hcond : (load_audio_features dir).features.length = 0 ∨
      (load_audio_features dir).features.length < k ∨ k = 0
  · rw [if_pos hcond] at h2
    cases h2
  · rw [if_neg hcond] at h2
    simp only [Except.ok.injEq, Prod.mk.injEq] at h2
    exact ⟨hcond, h2.1.symm, by rw [← h2.2, h2.1]⟩

/-- C9: after a training run producing a model with K centroids, looking up
any cluster id outside [0, K) — e.g. an id a stale index would expect after
retraining with fewer clusters — returns the empty sequence of identifiers
(`lookup` is a total filtering function: it cannot raise). -/
theorem C9_lookup_unknown_id_empty (fitImpl : List Vec → Nat → Nat → List Vec)
    (hfit : ∀ fs kk s, (fitImpl fs kk s).length = kk)
    (e : Nat) (dir : List AudioFile) (k : Nat) (centroids : List Vec) (ref : List RefEntry)
    (h : training_run fitImpl e dir k = .ok (centroids, ref))
    (id : Nat) (hid : centroids.length ≤ id) (limit : Nat) :
    lookup ref id limit = [] := by
  obtain ⟨hcond, hc, hr⟩ := training_run_ok_inv h
  push_neg at hcond
  obtain ⟨hne, hlen, hk⟩ := hcond
  have hclen : centroids.length = k := by rw [hc]; exact hfit _ _ _
  have hKpos : centroids ≠ [] := by
    intro hnil
    rw [hnil] at hclen
    exact hk hclen.symm
  have hall : ∀ a ∈ ref, a.cluster < id := by
    intro a ha
    rw [hr] at ha
    have hmem := cluster_mem_of_mem_zipWith ha
    rcases List.mem_map.mp hmem with ⟨f, _, hpf⟩
    have := @predict_lt_length centroids f hKpos
    omega
  have hfilter : ref.filter (fun a => a.cluster == id) = [] := by
    apply List.filter_eq_nil_iff.mpr
    intro a ha
    have := hall a ha
    simp only [beq_iff_eq]
    omega
  unfold lookup
  rw [hfilter]
  simp

/-- Witness for C9: a one-file corpus trained with k = 1; the id 5 lies
outside [0, 1) and finds nothing. -/
theorem C9_witness :
    lookup [RefEntry.mk "a.mp3" 0] 5 10 = [] :=
  C9_lookup_unknown_id_empty (fun _ kk _ => List.replicate kk ([] : Vec))
    (fun _ kk _ => by simp)
    0 [AudioFile.mk "a.mp3" (some [])] 1
    [([] : Vec)] [RefEntry.mk "a.mp3" 0] (by rfl) 5 (by decide) 10

theorem load_audio_features_filter (dir : List AudioFile) :
    load_audio_features (dir.filter (fun f => isAudioName f.name)) =
      load_audio_features dir := by
  induction dir with
  | nil => rfl
  | cons f rest ih =>
    by_cases ha : isAudioName f.name
    · rw [List.filter_cons_of_pos (by simpa using ha)]
      cases hw : f.waveform with
      | some w => simp [load_audio_features, ha, hw, ih]
      | none => simp [load_audio_features, ha, hw, ih]
    · rw [List.filter_cons_of_neg (by simpa using ha)]
      rw [ih]
      have : load_audio_features (f :: rest) = load_audio_features rest := by
        simp [load_audio_features, ha]
      rw [this]

/-- C10: the corpus enumeration processes exactly the directory entries whose
filename ends in the lowercase ".mp3" or ".wav" — running over the listing
restricted to such names changes nothing — and (directory listings carrying
distinct names) any other entry is ignored silently: its name shows up
neither among the extracted filenames nor in the skip log, and the total
function raises nothing. -/
theorem C10_extension_filter (dir : List AudioFile) :
    load_audio_features (dir.filter (fun f => isAudioName f.name)) =
      load_audio_features dir ∧
    ((dir.map AudioFile.name).Nodup →
      ∀ f ∈ dir, isAudioName f.name = false →
        f.name ∉ (load_audio_features dir).filenames ∧
        f.name ∉ (load_audio_features dir).skipped) := by
  refine ⟨load_audio_features_filter dir, ?_⟩
  intro hnd f hf hfa
  constructor
  · show f.name ∉ (load_audio_features dir).filenames
    rw [load_audio_features_eq]
    show f.name ∉ (usableSuccesses dir).map AudioFile.name
    intro hmem
    rcases List.mem_map.mp hmem with ⟨g, hg, hname⟩
    have hg_dir := List.mem_of_mem_filter hg
    have hp := List.of_mem_filter hg
    have hgf : g = f := List.inj_on_of_nodup_map hnd hg_dir hf hname
    rw [hgf] at hp
    simp only [Bool.and_eq_true] at hp
    rw [hfa] at hp
    exact Bool.false_ne_true hp.1
  · show f.name ∉ (load_audio_features dir).skipped
    rw [load_audio_features_eq]
    show f.name ∉ (usableFailures dir).map AudioFile.name
    intro hmem
    rcases List.mem_map.mp hmem with ⟨g, hg, hname⟩
    have hg_dir := List.mem_of_mem_filter hg
    have hp := List.of_mem_filter hg
    have hgf : g = f := List.inj_on_of_nodup_map hnd hg_dir hf hname
    rw [hgf] at hp
    simp only [Bool.and_eq_true] at hp
    rw [hfa] at hp
    exact Bool.false_ne_true hp.1

/-- Witness for C10: a directory with one wav file, one uppercase-extension
file and one text file — the two non-matching entries leave no trace. -/
theorem C10_witness :
    load_audio_features
        ([AudioFile.mk "a.wav" (some []), AudioFile.mk "B.MP3" (some []),
          AudioFile.mk "c.txt" none].filter (fun f => isAudioName f.name)) =
      load_audio_features
        [AudioFile.mk "a.wav" (some []), AudioFile.mk "B.MP3" (some []),
          AudioFile.mk "c.txt" none] ∧
    "B.MP3" ∉ (load_audio_features
        [AudioFile.mk "a.wav" (some []), AudioFile.mk "B.MP3" (some []),
          AudioFile.mk "c.txt" none]).filenames ∧
    "B.MP3" ∉ (load_audio_features
        [AudioFile.mk "a.wav" (some []), AudioFile.mk "B.MP3" (some []),
          AudioFile.mk "c.txt" none]).skipped := by
  have h := C10_extension_filter
    [AudioFile.mk "a.wav" (some []), AudioFile.mk "B.MP3" (some []),
      AudioFile.mk "c.txt" none]
  have h2 := h.2 (by decide) (AudioFile.mk "B.MP3" (some [])) (by decide) (by decide)
  exact ⟨h.1, h2.1, h2.2⟩

theorem loadRef_dumpRef (rows : List RefEntry) : loadRef (dumpRef rows) = rows := by
  induction rows with
  | nil => rfl
  | cons a t ih =>
    show RefEntry.mk a.filename a.cluster :: loadRef (dumpRef t) = a :: t
    rw [ih]

theorem zipWith_mk_map {α : Type} (g : α → String) (h2 : α → Nat) (l : List α) :
    List.zipWith RefEntry.mk (l.map g) (l.map h2) =
      l.map (fun x => RefEntry.mk (g x) (h2 x)) := by
  induction l with
  | nil => rfl
  | cons a t ih => simp only [List.map_cons, List.zipWith_cons_cons, ih]

/-- C6: persist the trained model and reference table, reload both, and
classify a training sample's waveform: the returned cluster id is the one
recorded for that sample in the reloaded reference table. -/
theorem C6_round_trip (fitImpl : List Vec → Nat → Nat → List Vec)
    (e : Nat) (dir : List AudioFile) (k : Nat) (centroids : List Vec) (ref : List RefEntry)
    (h : training_run fitImpl e dir k = .ok (centroids, ref))
    (i : Nat) (hi : i < (usableSuccesses dir).length) (w : List ℚ)
    (hw : ((usableSuccesses dir).get ⟨i, hi⟩).waveform = some w) :
    i < (loadRef (dumpRef ref)).length ∧
    classify (loadModel (dumpModel centroids)) w =
      ((loadRef (dumpRef ref)).getD i (RefEntry.mk "" 0)).cluster := by
  obtain ⟨hcond, hc, hr⟩ := training_run_ok_inv h
  have hsucc : ∀ f ∈ usableSuccesses dir, f.waveform.isSome = true :=
    fun f hf => usableSuccesses_isSome hf
  have hfeat : (load_audio_features dir).features =
      (usableSuccesses dir).map (fun f => extract_features (f.waveform.getD [])) := by
    rw [load_audio_features_eq]
    exact filterMap_waveform_eq hsucc
  have hnames : (load_audio_features dir).filenames =
      (usableSuccesses dir).map AudioFile.name := by
    rw [load_audio_features_eq]
  have href : ref = (usableSuccesses dir).map (fun f =>
      RefEntry.mk f.name (predict centroids (extract_features (f.waveform.getD [])))) := by
    rw [hr, hnames, hfeat, List.map_map]
    exact zipWith_mk_map _ _ _
  have hlr : loadRef (dumpRef ref) = ref := loadRef_dumpRef ref
  have hreflen : ref.length = (usableSuccesses dir).length := by
    rw [href, List.length_map]
  have hil : i < (loadRef (dumpRef ref)).length := by rw [hlr]; omega
  refine ⟨hil, ?_⟩
  have hir : i < ref.length := by omega
  have hgw : ((usableSuccesses dir).get ⟨i, hi⟩).waveform.getD [] = w := by
    rw [hw]
    rfl
  rw [hlr, List.getD_eq_getElem _ _ hir, List.getElem_of_eq href hir, List.getElem_map]
  show predict centroids (extract_features w) =
    predict centroids
      (extract_features (((usableSuccesses dir).get ⟨i, hi⟩).waveform.getD []))
  rw [hgw]

/-- Witness for C6 at a concrete one-file corpus trained with k = 1. -/
theorem C6_witness :
    0 < (loadRef (dumpRef [RefEntry.mk "a.mp3" 0])).length ∧
    classify (loadModel (dumpModel [([] : Vec)])) [] =
      ((loadRef (dumpRef [RefEntry.mk "a.mp3" 0])).getD 0 (RefEntry.mk "" 0)).cluster :=
  C6_round_trip (fun _ kk _ => List.replicate kk ([] : Vec)) 0
    [AudioFile.mk "a.mp3" (some [])] 1 [([] : Vec)] [RefEntry.mk "a.mp3" 0]
    (by rfl) 0 (by decide) [] (by rfl)

/-- C7: contrary to the spec's load-time validation requirement, loading a
model/reference pair whose cluster id ranges disagree raises nothing —
`load_model_and_reference` only checks file existence, so a 2-centroid model
paired with a stale table recording cluster 7 loads as a plain `.ok` pair
(the mismatch would only ever surface as an empty mid-lookup result). -/
theorem C7_no_load_time_validation :
    load_model_and_reference
        (some (dumpModel [List.replicate 13 (0 : ℚ), List.replicate 13 (1 : ℚ)]))
        (some [("x.mp3", 7)]) =
      .ok ([List.replicate 13 (0 : ℚ), List.replicate 13 (1 : ℚ)],
        [RefEntry.mk "x.mp3" 7]) ∧
    (loadModel (dumpModel [List.replicate 13 (0 : ℚ), List.replicate 13 (1 : ℚ)])).length = 2 :=
  ⟨rfl, rfl⟩

end Accent
